import Mathlib

/-!
Shallow embedding of `src/YaLibs/YaToolsIDALib/Hooks.cpp` (YaCo change
aggregation / reconciliation engine).

The `Hooks` object holds seven pending containers, filled by intake hooks
(`rename`, `change_comment`, `undefine`, ...) and consumed by `save` which
replays them against a model visitor.  The IDA database queried at flush
time (`get_struc_idx`, `get_func_by_frame`, `get_member`, `get_enum_idx`,
...) is an external oracle; it is modelled as a record of pure query
functions.  `std::set` is modelled as a strictly ascending `List Nat`
(same contents, same iteration order), `std::map` as a strictly ascending
association list (operator[] assignment = sorted upsert).

Visitor calls (`IModelIncremental` / `IModelVisitor` operations actually
invoked by Hooks.cpp) are recorded as a trace of `Event`s; repository
annotations (`IRepository::add_auto_comment`) as a trace of
`(id, message)` pairs.  The XML serialization of the final model and the
log/chrono calls are outside the containers/trace semantics and are not
modelled.
-/

set_option autoImplicit false

/-- `BADADDR`: the all-ones invalid address / id sentinel of the IDA SDK
(64-bit build).  Comparisons with `-1` on unsigned ids coincide with it. -/
def BADADDR : Nat := 2 ^ 64 - 1

/-- Ordered-set insertion on a strictly ascending list: the behaviour of
`std::set<ea_t>::insert` (dedup, ascending iteration order). -/
def setInsert (x : Nat) : List Nat → List Nat
  | [] => [x]
  | y :: ys =>
    if x < y then x :: y :: ys
    else if x = y then y :: ys
    else y :: setInsert x ys

/-- Ordered-set insertion for `std::set<std::tuple<ea_t, ea_t>>`
(lexicographic tuple order). -/
def segInsert (x : Nat × Nat) : List (Nat × Nat) → List (Nat × Nat)
  | [] => [x]
  | y :: ys =>
    if x.1 < y.1 ∨ (x.1 = y.1 ∧ x.2 < y.2) then x :: y :: ys
    else if x = y then y :: ys
    else y :: segInsert x ys

/-- Sorted-association-list upsert: the behaviour of
`std::map<tid_t, std::tuple<tid_t, ea_t>>::operator[] = v`
(replace the value if the key exists, else insert in key order). -/
def mapInsert (k : Nat) (v : Nat × Nat) :
    List (Nat × Nat × Nat) → List (Nat × Nat × Nat)
  | [] => [(k, v)]
  | (k2, v2) :: rest =>
    if k < k2 then (k, v) :: (k2, v2) :: rest
    else if k = k2 then (k, v) :: rest
    else (k2, v2) :: mapInsert k v rest

/-- The read-only IDA oracle consulted by Hooks.cpp: each field is one of
the IDA SDK queries the source calls.  `get_struc` is the null check on
the returned `struc_t*`; `get_member sid off` returns the id of the member
of struct `sid` occupying byte `off` (`none` for a null `member_t*`);
`is_code_flags ea` is `is_code(get_flags(ea))`.  `ea_to_hex` and
`get_member_fullname` (string helpers from headers not under src/) only
feed annotation text. -/
structure Oracle where
  get_struc_idx : Nat → Nat
  get_func_by_frame : Nat → Nat
  get_struc : Nat → Bool
  get_member : Nat → Nat → Option Nat
  get_enum_idx : Nat → Nat
  get_func : Nat → Bool
  is_code_flags : Nat → Bool
  is_member_id : Nat → Bool
  get_member_fullname : Nat → String
  ea_to_hex : Nat → String

/-- One visitor call. The constructors cover exactly the
`IModelIncremental`/`IModelVisitor` operations Hooks.cpp invokes — in
particular there is no comment-export operation, comments are only ever
folded into address re-exports. -/
inductive Event where
  | visit_start : Event
  | visit_end : Event
  | accept_ea (ea : Nat) : Event
  | accept_segment (ea : Nat) : Event
  | accept_struct (func_ea : Nat) (struct_id : Nat) : Event
  | delete_struct (struct_id : Nat) : Event
  | accept_struct_member (func_ea : Nat) (member_id : Nat) : Event
  | delete_struct_member (func_ea : Nat) (struct_id : Nat) (offset : Nat) : Event
  | accept_enum (enum_id : Nat) : Event
  | delete_enum (enum_id : Nat) : Event
  | accept_function (func_ea : Nat) : Event
deriving DecidableEq, Repr

/-- The seven pending containers of the `Hooks` object (Hooks.cpp lines
89–96), with the source's member names. -/
structure Hooks where
  addresses_to_process_ : List Nat
  structures_to_process_ : List Nat
  structmember_to_process_ : List (Nat × Nat × Nat)
  enums_to_process_ : List Nat
  enummember_to_process_ : List (Nat × Nat)
  comments_to_process_ : List Nat
  segments_to_process_ : List (Nat × Nat)
deriving DecidableEq, Repr

/-- The state constructed by `Hooks::Hooks`: every container empty. -/
def initState : Hooks :=
  { addresses_to_process_ := []
    structures_to_process_ := []
    structmember_to_process_ := []
    enums_to_process_ := []
    enummember_to_process_ := []
    comments_to_process_ := []
    segments_to_process_ := [] }

namespace Hooks

/-- `Hooks::add_address_to_process`: insert into the pending address set
and append one repository annotation. -/
def add_address_to_process (s : Hooks) (ea : Nat) (message : String) :
    Hooks × List (Nat × String) :=
  ({ s with addresses_to_process_ := setInsert ea s.addresses_to_process_ },
   [(ea, message)])

/-- `Hooks::add_strucmember_to_process`: upsert into the pending
structure-member map and append one repository annotation. -/
def add_strucmember_to_process (s : Hooks) (struct_id member_id member_offset : Nat)
    (message : String) : Hooks × List (Nat × String) :=
  ({ s with structmember_to_process_ :=
      mapInsert struct_id (member_id, member_offset) s.structmember_to_process_ },
   [(struct_id, message)])

/-- `Hooks::rename`: builds `"<type> renamed from <old>to <new>"`
(note: the source appends `"to "` directly after `old_name`, without a
separating space) and registers the address. -/
def rename (s : Hooks) (ea : Nat) (new_name type old_name : String) :
    Hooks × List (Nat × String) :=
  let message := type
  let message := if type ≠ "" then message ++ " " else message
  let message := message ++ "renamed "
  let message := if old_name ≠ "" then message ++ "from " ++ old_name else message
  let message := message ++ "to " ++ new_name
  add_address_to_process s ea message

/-- `Hooks::change_comment`: only records the address in the pending
comment set; annotation deferred to `save`. -/
def change_comment (s : Hooks) (ea : Nat) : Hooks × List (Nat × String) :=
  ({ s with comments_to_process_ := setInsert ea s.comments_to_process_ }, [])

/-- `Hooks::undefine` (the source's annotation string is `"Undefne"`). -/
def undefine (s : Hooks) (ea : Nat) : Hooks × List (Nat × String) :=
  add_address_to_process s ea "Undefne"

/-- `Hooks::delete_function`. -/
def delete_function (s : Hooks) (ea : Nat) : Hooks × List (Nat × String) :=
  add_address_to_process s ea "Delete function"

/-- `Hooks::make_code`. -/
def make_code (s : Hooks) (ea : Nat) : Hooks × List (Nat × String) :=
  add_address_to_process s ea "Create code"

/-- `Hooks::make_data`. -/
def make_data (s : Hooks) (ea : Nat) : Hooks × List (Nat × String) :=
  add_address_to_process s ea "Create data"

/-- `Hooks::add_function` (the documented limitation — contained addresses
are not invalidated — is visible: only `ea` itself is registered). -/
def add_function (s : Hooks) (ea : Nat) : Hooks × List (Nat × String) :=
  add_address_to_process s ea "Create function"

/-- `Hooks::update_structure`. -/
def update_structure (s : Hooks) (struct_id : Nat) : Hooks × List (Nat × String) :=
  ({ s with structures_to_process_ := setInsert struct_id s.structures_to_process_ },
   [(struct_id, "Updated")])

/-- `Hooks::update_structure_member`: resolves the member full name via
the oracle, builds the `"Member updated at offset ..."` annotation and
upserts the member entry. -/
def update_structure_member (o : Oracle) (s : Hooks)
    (struct_id member_id member_offset : Nat) : Hooks × List (Nat × String) :=
  let message := "Member updated at offset " ++ o.ea_to_hex member_offset
      ++ " : " ++ o.get_member_fullname member_id
  add_strucmember_to_process s struct_id member_id member_offset message

/-- `Hooks::delete_structure_member`. -/
def delete_structure_member (s : Hooks) (struct_id member_id offset : Nat) :
    Hooks × List (Nat × String) :=
  add_strucmember_to_process s struct_id member_id offset "Member deleted"

/-- `Hooks::update_enum`. -/
def update_enum (s : Hooks) (enum_id : Nat) : Hooks × List (Nat × String) :=
  ({ s with enums_to_process_ := setInsert enum_id s.enums_to_process_ },
   [(enum_id, "Updated")])

/-- `Hooks::change_operand_type`: function/code addresses are tracked,
member ids are ignored (covered by the member hooks), anything else is
only warned about (warning log not modelled; containers untouched). -/
def change_operand_type (o : Oracle) (s : Hooks) (ea : Nat) :
    Hooks × List (Nat × String) :=
  if o.get_func ea || o.is_code_flags ea then
    ({ s with addresses_to_process_ := setInsert ea s.addresses_to_process_ },
     [(ea, "Operand type change")])
  else
    (s, [])

/-- `Hooks::add_segment`: records the (start, end) pair; no annotation. -/
def add_segment (s : Hooks) (start_ea end_ea : Nat) : Hooks × List (Nat × String) :=
  ({ s with segments_to_process_ := segInsert (start_ea, end_ea) s.segments_to_process_ },
   [])

/-- `Hooks::change_type_information`. -/
def change_type_information (s : Hooks) (ea : Nat) : Hooks × List (Nat × String) :=
  add_address_to_process s ea "Type information changed"

/-- `Hooks::flush`: clear all seven containers. -/
def flush (_ : Hooks) : Hooks := initState

/-- Per-structure branch of `Hooks::save_structures` (lines 272–294):
valid index → accept as standalone struct; index gone but the id is some
function's frame → accept scoped to the function and re-accept the
function's address; otherwise delete. -/
def processStruct (o : Oracle) (struct_id : Nat) : List Event :=
  if o.get_struc_idx struct_id ≠ BADADDR then
    [Event.accept_struct BADADDR struct_id]
  else
    let func_ea := o.get_func_by_frame struct_id
    if func_ea ≠ BADADDR then
      [Event.accept_struct func_ea struct_id, Event.accept_ea func_ea]
    else
      [Event.delete_struct struct_id]

/-- Member resolution (lines 322–343) once the owning-function context
`func_ctx` (`stackframe_func_addr`, `BADADDR` when none) is settled:
missing member or sentinel id `-1` → delete; member whose id also occupies
`offset - 1` → phantom, delete; otherwise accept the member id. -/
def memberResolve (o : Oracle) (func_ctx struct_id offset : Nat) : List Event :=
  match o.get_member struct_id offset with
  | none => [Event.delete_struct_member func_ctx struct_id offset]
  | some mid =>
    if mid = BADADDR then
      [Event.delete_struct_member func_ctx struct_id offset]
    else if 0 < offset ∧ o.get_member struct_id (offset - 1) = some mid then
      [Event.delete_struct_member func_ctx struct_id offset]
    else
      [Event.accept_struct_member func_ctx mid]

/-- The `stackframe_func_addr` context a pending member entry of
`struct_id` is resolved under (lines 302–320): the owning function when
the struct is gone but is a frame, `BADADDR` otherwise. -/
def memberCtx (o : Oracle) (struct_id : Nat) : Nat :=
  if o.get_struc struct_id = false ∨ o.get_struc_idx struct_id = BADADDR then
    if o.get_func_by_frame struct_id = BADADDR then BADADDR
    else o.get_func_by_frame struct_id
  else BADADDR

/-- Per-entry branch of the member loop of `Hooks::save_structures`
(lines 297–344).  The stored member id (`entry.2.1`) is read but never
used by the source's resolution, only the struct id and offset are. -/
def processMember (o : Oracle) (entry : Nat × Nat × Nat) : List Event :=
  let struct_id := entry.1
  let offset := entry.2.2
  if o.get_struc struct_id = false ∨ o.get_struc_idx struct_id = BADADDR then
    let func_ea := o.get_func_by_frame struct_id
    if func_ea = BADADDR then
      [Event.delete_struct_member BADADDR struct_id offset]
    else
      Event.accept_function func_ea :: memberResolve o func_ea struct_id offset
  else
    memberResolve o BADADDR struct_id offset

/-- The structure loop of `Hooks::save_structures`, in set order. -/
def processStructs (o : Oracle) : List Nat → List Event
  | [] => []
  | id :: rest => processStruct o id ++ processStructs o rest

/-- The member loop of `Hooks::save_structures`, in map key order. -/
def processMembers (o : Oracle) : List (Nat × Nat × Nat) → List Event
  | [] => []
  | e :: rest => processMember o e ++ processMembers o rest

/-- `Hooks::save_structures`: structures first, then member entries. -/
def save_structures (o : Oracle) (s : Hooks) : List Event :=
  processStructs o s.structures_to_process_
    ++ processMembers o s.structmember_to_process_

/-- Per-enum branch of `Hooks::save_enums` (lines 350–362).  Enum-member
reconciliation is explicitly not implemented in the source. -/
def processEnum (o : Oracle) (enum_id : Nat) : List Event :=
  if o.get_enum_idx enum_id = BADADDR then [Event.delete_enum enum_id]
  else [Event.accept_enum enum_id]

/-- The enum loop of `Hooks::save_enums`, in set order. -/
def processEnums (o : Oracle) : List Nat → List Event
  | [] => []
  | id :: rest => processEnum o id ++ processEnums o rest

/-- `Hooks::save_enums`. -/
def save_enums (o : Oracle) (s : Hooks) : List Event :=
  processEnums o s.enums_to_process_

/-- The comment fold at the top of `Hooks::save` (lines 220–221): each
pending comment address is pushed through `add_address_to_process` with
annotation `"Changed comment"`, accumulating the repository log. -/
def foldComments : List Nat → Hooks × List (Nat × String) → Hooks × List (Nat × String)
  | [], acc => acc
  | ea :: rest, (s, log) =>
    let r := add_address_to_process s ea "Changed comment"
    foldComments rest (r.1, log ++ r.2)

/-- Result of one `Hooks::save` run: the state it leaves behind (save
does NOT clear the containers — only `flush` does), the visitor trace,
and the repository annotations it appended. -/
structure SaveResult where
  st : Hooks
  events : List Event
  log : List (Nat × String)
deriving DecidableEq, Repr

/-- `Hooks::save` (lines 210–244): fold comments into the address set,
then visit-start, structures, enums, every pending address, every pending
segment (identified by its start address), visit-end.  Serialization to
the cache folder and timing are external effects outside this model. -/
def save (o : Oracle) (s : Hooks) : SaveResult :=
  let folded := foldComments s.comments_to_process_ (s, [])
  let s1 := folded.1
  { st := s1
    events :=
      [Event.visit_start]
        ++ save_structures o s1
        ++ save_enums o s1
        ++ s1.addresses_to_process_.map Event.accept_ea
        ++ s1.segments_to_process_.map (fun seg => Event.accept_segment seg.1)
        ++ [Event.visit_end]
    log := folded.2 }

end Hooks

/-- An oracle for which every query fails / is invalid: no structs, no
functions, no enums, no members. -/
def oracleNone : Oracle :=
  { get_struc_idx := fun _ => BADADDR
    get_func_by_frame := fun _ => BADADDR
    get_struc := fun _ => false
    get_member := fun _ _ => none
    get_enum_idx := fun _ => BADADDR
    get_func := fun _ => false
    is_code_flags := fun _ => false
    is_member_id := fun _ => false
    get_member_fullname := fun _ => ""
    ea_to_hex := fun _ => "" }

/-- An oracle whose structs all exist (index 0) and whose every member
query reports member id 5. -/
def oracleMember5 : Oracle :=
  { get_struc_idx := fun _ => 0
    get_func_by_frame := fun _ => BADADDR
    get_struc := fun _ => true
    get_member := fun _ _ => some 5
    get_enum_idx := fun _ => 0
    get_func := fun _ => false
    is_code_flags := fun _ => false
    is_member_id := fun _ => false
    get_member_fullname := fun _ => "m"
    ea_to_hex := fun _ => "0" }

lemma foldComments_fields (l : List Nat) (s : Hooks) (log : List (Nat × String)) :
    (Hooks.foldComments l (s, log)).1.structures_to_process_ = s.structures_to_process_
    ∧ (Hooks.foldComments l (s, log)).1.structmember_to_process_ = s.structmember_to_process_
    ∧ (Hooks.foldComments l (s, log)).1.enums_to_process_ = s.enums_to_process_
    ∧ (Hooks.foldComments l (s, log)).1.enummember_to_process_ = s.enummember_to_process_
    ∧ (Hooks.foldComments l (s, log)).1.comments_to_process_ = s.comments_to_process_
    ∧ (Hooks.foldComments l (s, log)).1.segments_to_process_ = s.segments_to_process_
    ∧ (Hooks.foldComments l (s, log)).1.addresses_to_process_
        = l.foldl (fun a ea => setInsert ea a) s.addresses_to_process_
    ∧ (Hooks.foldComments l (s, log)).2
        = log ++ l.map (fun ea => (ea, "Changed comment")) := by
  induction l generalizing s log with
  | nil => simp [Hooks.foldComments]
  | cons ea rest ih =>
    simpa [Hooks.foldComments, Hooks.add_address_to_process] using
      ih { s with addresses_to_process_ := setInsert ea s.addresses_to_process_ }
        (log ++ [(ea, "Changed comment")])

/-- C1 counterexample: the claim "after any successful call to save() all
pending containers are empty" is false: after `undefine 1` followed by
`save`, the pending address set still holds `1` — `Hooks::save` never
clears the containers, only `Hooks::flush` does. -/
theorem claim_C1_cex :
    ((Hooks.save oracleNone (Hooks.undefine initState 1).1).st).addresses_to_process_ ≠ [] := by
  decide

/-- C1 (amended): clearing is `flush`'s job, not `save`'s: after `flush`
(in particular after a save-then-flush cycle) every pending container is
empty, and all containers are empty at construction, before the first
mutation. -/
theorem claim_C1 :
    (∀ (o : Oracle) (s : Hooks), Hooks.flush (Hooks.save o s).st = initState)
    ∧ (∀ s : Hooks, Hooks.flush s = initState)
    ∧ initState.addresses_to_process_ = []
    ∧ initState.structures_to_process_ = []
    ∧ initState.structmember_to_process_ = []
    ∧ initState.enums_to_process_ = []
    ∧ initState.enummember_to_process_ = []
    ∧ initState.comments_to_process_ = []
    ∧ initState.segments_to_process_ = [] :=
  ⟨fun _ _ => rfl, fun _ => rfl, rfl, rfl, rfl, rfl, rfl, rfl, rfl⟩

/-- C2: each fixed-annotation intake hook inserts the address into the
pending set and sends its fixed string — but the string `undefine` sends
is the source's literal `"Undefne"`, not the claimed `"Undefine"` (a typo
in Hooks.cpp line 129; the five other hooks match the claim). -/
theorem claim_C2 :
    (Hooks.undefine initState 0).1.addresses_to_process_ = [0]
    ∧ (Hooks.undefine initState 0).2 = [(0, "Undefne")]
    ∧ "Undefne" ≠ "Undefine"
    ∧ (Hooks.delete_function initState 1).2 = [(1, "Delete function")]
    ∧ (Hooks.make_code initState 2).2 = [(2, "Create code")]
    ∧ (Hooks.make_data initState 3).2 = [(3, "Create data")]
    ∧ (Hooks.add_function initState 4).2 = [(4, "Create function")]
    ∧ (Hooks.change_type_information initState 5).2 = [(5, "Type information changed")] := by
  refine ⟨rfl, rfl, by decide, rfl, rfl, rfl, rfl, rfl⟩

/-- C3: the rename annotation when an old name is present is
`"<type> renamed from <old>to <new>"` — the source appends `"to "`
directly after the old name with no separating space, so the claimed
format `"<type> renamed from <old> to <new>"` does not hold; the
empty-old-name cases match the claim. -/
theorem claim_C3 :
    (Hooks.rename initState 7 "new" "label" "old").2
        = [(7, "label renamed from oldto new")]
    ∧ "label renamed from oldto new" ≠ "label renamed from old to new"
    ∧ (Hooks.rename initState 7 "new" "" "").2 = [(7, "renamed to new")]
    ∧ (Hooks.rename initState 7 "new" "label" "").2 = [(7, "label renamed to new")]
    ∧ (Hooks.rename initState 7 "new" "label" "old").1.addresses_to_process_ = [7] := by
  refine ⟨rfl, by decide, rfl, rfl, rfl⟩

/-- C6: for a pending enum id, `save` emits exactly one enum event:
`delete enum` when the oracle reports an invalid index, `accept enum` when
the index is valid — never both for the same id (the trace holds a single
enum event). -/
theorem claim_C6 (o : Oracle) (id : Nat) :
    (Hooks.save o (Hooks.update_enum initState id).1).events
      = [Event.visit_start,
         (if o.get_enum_idx id = BADADDR then Event.delete_enum id
          else Event.accept_enum id),
         Event.visit_end] := by
  by_cases h : o.get_enum_idx id = BADADDR <;>
    simp [Hooks.save, Hooks.update_enum, Hooks.foldComments, Hooks.save_structures,
          Hooks.save_enums, Hooks.processStructs, Hooks.processMembers,
          Hooks.processEnums, Hooks.processEnum, initState, setInsert, h]

/-- C7: an address registered only via `change_comment` is folded by
`save` into the pending address set with repository annotation
`"Changed comment"`, and the flush trace holds exactly one
`accept_ea` export for it and no other entity event (there is no separate
comment-export visitor operation). -/
theorem claim_C7 (o : Oracle) (ea : Nat) :
    (Hooks.save o (Hooks.change_comment initState ea).1).log
        = [(ea, "Changed comment")]
    ∧ (Hooks.save o (Hooks.change_comment initState ea).1).st.addresses_to_process_
        = [ea]
    ∧ (Hooks.save o (Hooks.change_comment initState ea).1).events
        = [Event.visit_start, Event.accept_ea ea, Event.visit_end]
    ∧ ((Hooks.save o (Hooks.change_comment initState ea).1).events.count
        (Event.accept_ea ea)) = 1 := by
  refine ⟨?_, ?_, ?_, ?_⟩ <;>
    simp [Hooks.save, Hooks.change_comment, Hooks.foldComments,
          Hooks.add_address_to_process, Hooks.save_structures, Hooks.save_enums,
          Hooks.processStructs, Hooks.processMembers, Hooks.processEnums,
          initState, setInsert, List.count_cons]

/-- C10 (frame): `save` leaves the structure, structure-member, enum,
enum-member, comment and segment containers exactly as they were; among
the seven containers only the address set changes, by folding in the
pending comment addresses. -/
theorem claim_C10 (o : Oracle) (s : Hooks) :
    (Hooks.save o s).st.structures_to_process_ = s.structures_to_process_
    ∧ (Hooks.save o s).st.structmember_to_process_ = s.structmember_to_process_
    ∧ (Hooks.save o s).st.enums_to_process_ = s.enums_to_process_
    ∧ (Hooks.save o s).st.enummember_to_process_ = s.enummember_to_process_
    ∧ (Hooks.save o s).st.comments_to_process_ = s.comments_to_process_
    ∧ (Hooks.save o s).st.segments_to_process_ = s.segments_to_process_
    ∧ (Hooks.save o s).st.addresses_to_process_
        = s.comments_to_process_.foldl (fun a ea => setInsert ea a)
            s.addresses_to_process_ := by
  have h := foldComments_fields s.comments_to_process_ s []
  exact ⟨h.1, h.2.1, h.2.2.1, h.2.2.2.1, h.2.2.2.2.1, h.2.2.2.2.2.1,
         h.2.2.2.2.2.2.1⟩

/-- An oracle for which every struct id has no valid index but resolves
to the frame of the function at address 7. -/
def oracleFrame : Oracle :=
  { get_struc_idx := fun _ => BADADDR
    get_func_by_frame := fun _ => 7
    get_struc := fun _ => false
    get_member := fun _ _ => none
    get_enum_idx := fun _ => BADADDR
    get_func := fun _ => false
    is_code_flags := fun _ => false
    is_member_id := fun _ => false
    get_member_fullname := fun _ => ""
    ea_to_hex := fun _ => "" }

/-- C4: for a pending structure id whose index is gone, `save` emits
`accept_struct` scoped to the owning function followed by `accept_ea` of
that function and never `delete_struct`, when a frame-owning function
resolves; and exactly one `delete_struct` (and nothing else for the id)
when none does. -/
theorem claim_C4 (o : Oracle) (id f : Nat)
    (hidx : o.get_struc_idx id = BADADDR) :
    (o.get_func_by_frame id = f → f ≠ BADADDR →
      (Hooks.save o (Hooks.update_structure initState id).1).events
        = [Event.visit_start, Event.accept_struct f id, Event.accept_ea f,
           Event.visit_end]
      ∧ Event.delete_struct id
          ∉ (Hooks.save o (Hooks.update_structure initState id).1).events)
    ∧ (o.get_func_by_frame id = BADADDR →
      (Hooks.save o (Hooks.update_structure initState id).1).events
        = [Event.visit_start, Event.delete_struct id, Event.visit_end]) := by
  constructor
  · intro hf hfne
    constructor <;>
      simp [Hooks.save, Hooks.update_structure, Hooks.foldComments,
            Hooks.save_structures, Hooks.save_enums, Hooks.processStructs,
            Hooks.processMembers, Hooks.processEnums, Hooks.processStruct,
            initState, setInsert, hidx, hf, hfne]
  · intro hf
    simp [Hooks.save, Hooks.update_structure, Hooks.foldComments,
          Hooks.save_structures, Hooks.save_enums, Hooks.processStructs,
          Hooks.processMembers, Hooks.processEnums, Hooks.processStruct,
          initState, setInsert, hidx, hf]

/-- Witness for C4: both branches at concrete inputs (struct id 5; owning
function 7 under `oracleFrame`, no function under `oracleNone`). -/
theorem claim_C4_witness :
    ((Hooks.save oracleFrame (Hooks.update_structure initState 5).1).events
        = [Event.visit_start, Event.accept_struct 7 5, Event.accept_ea 7,
           Event.visit_end]
      ∧ Event.delete_struct 5
          ∉ (Hooks.save oracleFrame (Hooks.update_structure initState 5).1).events)
    ∧ (Hooks.save oracleNone (Hooks.update_structure initState 5).1).events
        = [Event.visit_start, Event.delete_struct 5, Event.visit_end] :=
  ⟨(claim_C4 oracleFrame 5 7 rfl).1 rfl (by decide),
   (claim_C4 oracleNone 5 0 rfl).2 rfl⟩

lemma memberResolve_overlap (o : Oracle) (ctx sid off m : Nat) (hoff : 0 < off)
    (h1 : o.get_member sid off = some m)
    (h2 : o.get_member sid (off - 1) = some m) :
    Hooks.memberResolve o ctx sid off
      = [Event.delete_struct_member ctx sid off] := by
  unfold Hooks.memberResolve
  rw [h1]
  by_cases hm : m = BADADDR
  · simp [hm]
  · simp [hm, hoff, h2]

/-- C5: for a pending structure-member entry at offset `off > 0` where
the oracle reports a member at `off` whose id also occupies `off - 1`,
`save` emits `delete_struct_member` for (struct, off) under the
owning-function context (if any) and never `accept_struct_member`. -/
theorem claim_C5 (o : Oracle) (sid mid off m : Nat) (hoff : 0 < off)
    (h1 : o.get_member sid off = some m)
    (h2 : o.get_member sid (off - 1) = some m) :
    Event.delete_struct_member (Hooks.memberCtx o sid) sid off
        ∈ (Hooks.save o (Hooks.delete_structure_member initState sid mid off).1).events
    ∧ ∀ c x, Event.accept_struct_member c x
        ∉ (Hooks.save o (Hooks.delete_structure_member initState sid mid off).1).events := by
  have hev : (Hooks.save o (Hooks.delete_structure_member initState sid mid off).1).events
      = Event.visit_start :: (Hooks.processMember o (sid, mid, off) ++ [Event.visit_end]) := by
    simp [Hooks.save, Hooks.delete_structure_member, Hooks.add_strucmember_to_process,
          Hooks.foldComments, Hooks.save_structures, Hooks.save_enums,
          Hooks.processStructs, Hooks.processMembers, Hooks.processEnums,
          initState, mapInsert]
  rw [hev]
  have hres := memberResolve_overlap o
  unfold Hooks.processMember Hooks.memberCtx
  by_cases hg : o.get_struc sid = false ∨ o.get_struc_idx sid = BADADDR
  · by_cases hf : o.get_func_by_frame sid = BADADDR
    · simp [hg, hf]
    · simp [hg, hf, hres (o.get_func_by_frame sid) sid off m hoff h1 h2]
  · simp [hg, hres BADADDR sid off m hoff h1 h2]

/-- Witness for C5: struct 10, stored member 20, offset 2, with
`oracleMember5` reporting member id 5 at every offset. -/
theorem claim_C5_witness :
    Event.delete_struct_member (Hooks.memberCtx oracleMember5 10) 10 2
        ∈ (Hooks.save oracleMember5
            (Hooks.delete_structure_member initState 10 20 2).1).events
    ∧ Event.accept_struct_member 0 5
        ∉ (Hooks.save oracleMember5
            (Hooks.delete_structure_member initState 10 20 2).1).events :=
  ⟨(claim_C5 oracleMember5 10 20 2 5 (by decide) rfl rfl).1,
   (claim_C5 oracleMember5 10 20 2 5 (by decide) rfl rfl).2 0 5⟩

lemma iterate_add_address (ea : Nat) (msg : String) (N : Nat) (hN : 1 ≤ N) :
    (fun t => (Hooks.add_address_to_process t ea msg).1)^[N] initState
      = { initState with addresses_to_process_ := [ea] } := by
  induction N with
  | zero => omega
  | succ n ih =>
    rw [Function.iterate_succ_apply']
    by_cases hn : 1 ≤ n
    · rw [ih hn]
      simp [Hooks.add_address_to_process, setInsert]
    · have hz : n = 0 := by omega
      subst hz
      simp [Hooks.add_address_to_process, setInsert, initState]

/-- C8: registering the same address-mutation `N ≥ 1` times (every
address hook funnels through `add_address_to_process`) leaves exactly one
pending entry for the address, and the flush trace holds exactly one
`accept_ea` export for it. -/
theorem claim_C8 (o : Oracle) (ea : Nat) (msg : String) (N : Nat) (hN : 1 ≤ N) :
    ((fun t => (Hooks.add_address_to_process t ea msg).1)^[N] initState).addresses_to_process_
        = [ea]
    ∧ (Hooks.save o
        ((fun t => (Hooks.add_address_to_process t ea msg).1)^[N] initState)).events
        = [Event.visit_start, Event.accept_ea ea, Event.visit_end]
    ∧ ((Hooks.save o
        ((fun t => (Hooks.add_address_to_process t ea msg).1)^[N] initState)).events.count
          (Event.accept_ea ea)) = 1 := by
  rw [iterate_add_address ea msg N hN]
  refine ⟨rfl, ?_, ?_⟩ <;>
    simp [Hooks.save, Hooks.foldComments, Hooks.save_structures, Hooks.save_enums,
          Hooks.processStructs, Hooks.processMembers, Hooks.processEnums,
          initState, List.count_cons]

/-- Witness for C8: three repetitions of the same mutation on address 7. -/
theorem claim_C8_witness :
    ((fun t => (Hooks.add_address_to_process t 7 "x").1)^[3] initState).addresses_to_process_
        = [7]
    ∧ (Hooks.save oracleNone
        ((fun t => (Hooks.add_address_to_process t 7 "x").1)^[3] initState)).events
        = [Event.visit_start, Event.accept_ea 7, Event.visit_end]
    ∧ ((Hooks.save oracleNone
        ((fun t => (Hooks.add_address_to_process t 7 "x").1)^[3] initState)).events.count
          (Event.accept_ea 7)) = 1 :=
  claim_C8 oracleNone 7 "x" 3 (by decide)

lemma mapInsert_overwrite (k : Nat) (v1 v2 : Nat × Nat)
    (l : List (Nat × Nat × Nat)) :
    mapInsert k v2 (mapInsert k v1 l) = mapInsert k v2 l := by
  induction l with
  | nil => simp [mapInsert]
  | cons e rest ih =>
    obtain ⟨k2, w⟩ := e
    by_cases h1 : k < k2
    · simp [mapInsert, h1]
    · by_cases h2 : k = k2
      · simp [mapInsert, h1, h2]
      · simp [mapInsert, h1, h2, ih]

/-- C9: two member edits on the same structure before a flush leave only
the most recently registered (member id, offset) pair in the pending map
(operator[] overwrite, proved for arbitrary map contents in the last
conjunct), and the flush trace resolves only that last entry. -/
theorem claim_C9 (o : Oracle) (k m1 o1 m2 o2 : Nat) :
    ((Hooks.delete_structure_member
        (Hooks.update_structure_member o initState k m1 o1).1 k m2 o2).1).structmember_to_process_
      = [(k, m2, o2)]
    ∧ (Hooks.save o (Hooks.delete_structure_member
        (Hooks.update_structure_member o initState k m1 o1).1 k m2 o2).1).events
      = Event.visit_start :: (Hooks.processMember o (k, m2, o2) ++ [Event.visit_end])
    ∧ ∀ (l : List (Nat × Nat × Nat)) (v1 v2 : Nat × Nat),
        mapInsert k v2 (mapInsert k v1 l) = mapInsert k v2 l := by
  refine ⟨?_, ?_, fun l v1 v2 => mapInsert_overwrite k v1 v2 l⟩
  · simp [Hooks.delete_structure_member, Hooks.update_structure_member,
          Hooks.add_strucmember_to_process, initState, mapInsert]
  · simp [Hooks.save, Hooks.delete_structure_member, Hooks.update_structure_member,
          Hooks.add_strucmember_to_process, Hooks.foldComments,
          Hooks.save_structures, Hooks.save_enums, Hooks.processStructs,
          Hooks.processMembers, Hooks.processEnums, initState, mapInsert]
